import Mathlib

/-!
Verification of the `dissembler` process-lifecycle supervisor.

The Go source (src/dissembler.go) defines:
  * six re-exported Unix signal constants (SIGHUP, SIGINT, SIGQUIT, SIGTERM,
    SIGUSR1, SIGUSR2);
  * a `Lifecycle` interface with `Init`, `Start`, `Stop`, each returning an
    error or nil;
  * an optional `Reloader` interface with `Reload`;
  * `Dissembler.Serve`, which calls `Init` (returning its error on failure),
    launches `Start` in a goroutine whose result is never read, blocks in
    `Wait`, logs a `Wait` error if present, and returns nil;
  * `Dissembler.Wait`, which subscribes a channel of capacity 2 to the six
    signals and loops: each received signal is logged; SIGINT, SIGQUIT and
    SIGTERM each call `Stop` (its error discarded) and return that signal
    with a nil error; all other signals fall through and the loop continues.

Embedding choices.  A lifecycle is modelled by the results its three
callbacks would return plus an optional `Reload` result (presence of the
field models implementing the `Reloader` interface).  OS signal delivery is
modelled by the list of signals received from the channel, in order.  `Wait`
is a function from that list to the trace of events it performs (signals
caught, `Stop` calls) together with `some (sig, err)` when the loop returns,
or `none` when the list is exhausted without a terminating signal, which
models blocking forever.  The goroutine running `Start` is scheduled by an
explicit parameter `sched : Option Nat`: `some k` means the `Start`
invocation lands after `k` events of the wait loop, `none` means the
goroutine was never scheduled before `Serve` returned.  The channel creation
`make(chan os.Signal, 2)` and the `signal.Notify` subscription list are
modelled by the constants `signalChanCapacity` and `notifiedSignals`.
-/

/-- Go `error` values; `Option Err` is `nil`-or-error. -/
abbrev Err := String

/-- The six signal kinds subscribed to in `Wait` (src/dissembler.go:15-35). -/
inductive Sig where
  | SIGHUP
  | SIGINT
  | SIGQUIT
  | SIGTERM
  | SIGUSR1
  | SIGUSR2
  deriving DecidableEq, Repr

/-- A `Lifecycle` implementation, described by the results of its callbacks.
`reload = some r` models a lifecycle that also implements `Reloader`
(src/dissembler.go:44-64). -/
structure Lifecycle where
  initRes : Option Err
  startRes : Option Err
  stopRes : Option Err
  reload : Option (Option Err)
  deriving DecidableEq, Repr

/-- Observable events of one `Serve` run: callback invocations and the
"signal caught" log line of the wait loop. -/
inductive Event where
  | initCall
  | startCall
  | stopCall
  | reloadCall
  | sigCaught (s : Sig)
  deriving DecidableEq, Repr

/-- `type Dissembler struct { lifecycle Lifecycle }` (src/dissembler.go:67-69). -/
structure Dissembler where
  lifecycle : Lifecycle
  deriving DecidableEq, Repr

/-- Capacity of the channel made in `Wait`: `make(chan os.Signal, 2)`
(src/dissembler.go:131). -/
def signalChanCapacity : Nat := 2

/-- The subscription list passed to `signal.Notify` (src/dissembler.go:132-140). -/
def notifiedSignals : List Sig :=
  [.SIGHUP, .SIGINT, .SIGQUIT, .SIGTERM, .SIGUSR1, .SIGUSR2]

/-- Terminating signals: the ones whose `case` in the wait loop's `switch`
calls `Stop` and returns (src/dissembler.go:154-167). -/
def isTerminating : Sig → Bool
  | .SIGINT => true
  | .SIGQUIT => true
  | .SIGTERM => true
  | _ => false

/-- The wait loop (src/dissembler.go:141-182) applied to the list of signals
received from the channel, in delivery order.  Each received signal is
logged (`sigCaught`); SIGINT, SIGQUIT and SIGTERM call `Stop` — its error is
discarded by the Go code — and return that signal with a nil error; every
other signal matches no `case` and the loop blocks on the next receive.  An
exhausted list means the loop is still blocked: no return value. -/
def Dissembler.Wait (d : Dissembler) : List Sig → List Event × Option (Sig × Option Err)
  | [] => ([], none)
  | sig :: rest =>
    match sig with
    | .SIGINT => ([.sigCaught .SIGINT, .stopCall], some (.SIGINT, none))
    | .SIGQUIT => ([.sigCaught .SIGQUIT, .stopCall], some (.SIGQUIT, none))
    | .SIGTERM => ([.sigCaught .SIGTERM, .stopCall], some (.SIGTERM, none))
    | s =>
      let r := d.Wait rest
      (.sigCaught s :: r.1, r.2)

/-- Insertion of the `Start` goroutine's invocation into the wait-loop trace:
`some k` schedules it after `k` wait-loop events, `none` means the goroutine
never ran before `Serve` returned. -/
def insertStart : Option Nat → List Event → List Event
  | none, evs => evs
  | some k, evs => evs.take k ++ Event.startCall :: evs.drop k

/-- Outcome of one `Serve` run.  `ret = none` means `Serve` never returns
(blocked in `Wait`); `ret = some r` means it returns the Go value `r`.
`waitErrLogged` records whether the `nil != err` branch after `Wait`
(src/dissembler.go:119-123) was taken. -/
structure ServeResult where
  trace : List Event
  ret : Option (Option Err)
  waitEntered : Bool
  waitErrLogged : Bool
  deriving DecidableEq, Repr

/-- `Dissembler.Serve` (src/dissembler.go:97-126): call `Init`, returning its
error on failure; launch `Start` in a goroutine (result never read); block in
`Wait`; if `Wait` returned a non-nil error, log it; return nil. -/
def Dissembler.Serve (d : Dissembler) (sigs : List Sig) (sched : Option Nat) : ServeResult :=
  match d.lifecycle.initRes with
  | some e => ⟨[.initCall], some (some e), false, false⟩
  | none =>
    let w := d.Wait sigs
    let logged :=
      match w.2 with
      | some (_, some _) => true
      | _ => false
    ⟨.initCall :: insertStart sched w.1,
      if w.2.isSome then some none else none,
      true, logged⟩

/-- The package-level `Serve` helper (src/dissembler.go:91-94). -/
def Serve (lc : Lifecycle) (sigs : List Sig) (sched : Option Nat) : ServeResult :=
  (Dissembler.mk lc).Serve sigs sched

/-- Number of `Stop` invocations recorded in a trace. -/
def stopCount (t : List Event) : Nat := t.count Event.stopCall

/-- The callback invocations of a trace, in order (log lines dropped). -/
def callEvents (t : List Event) : List Event :=
  t.filter fun e =>
    match e with
    | .sigCaught _ => false
    | _ => true

/-! ### Basic lemmas about the wait loop -/

lemma wait_nil (d : Dissembler) : d.Wait [] = ([], none) := rfl

lemma wait_cons_terminating (d : Dissembler) (s : Sig) (rest : List Sig)
    (h : isTerminating s = true) :
    d.Wait (s :: rest) = ([.sigCaught s, .stopCall], some (s, none)) := by
  cases s <;> simp [isTerminating] at h <;> rfl

lemma wait_cons_ignored (d : Dissembler) (s : Sig) (rest : List Sig)
    (h : isTerminating s = false) :
    d.Wait (s :: rest) = (Event.sigCaught s :: (d.Wait rest).1, (d.Wait rest).2) := by
  cases s <;> simp [isTerminating] at h <;> rfl

/-- A prefix of non-terminating signals is logged and otherwise skipped. -/
lemma wait_append_ignored (d : Dissembler) (pre tail : List Sig)
    (hpre : ∀ x ∈ pre, isTerminating x = false) :
    d.Wait (pre ++ tail) =
      (pre.map Event.sigCaught ++ (d.Wait tail).1, (d.Wait tail).2) := by
  induction pre with
  | nil => simp
  | cons a pre ih =>
      have ha : isTerminating a = false := hpre a (List.mem_cons_self a pre)
      have hrest : ∀ x ∈ pre, isTerminating x = false :=
        fun x hx => hpre x (List.mem_cons_of_mem a hx)
      simp [wait_cons_ignored d a _ ha, ih hrest]

/-- The wait loop returns only if a terminating signal was delivered. -/
lemma wait_returns_imp_terminating (d : Dissembler) (sigs : List Sig)
    (h : ((d.Wait sigs).2).isSome = true) : ∃ t ∈ sigs, isTerminating t = true := by
  induction sigs with
  | nil => simp [wait_nil] at h
  | cons a rest ih =>
      by_cases ha : isTerminating a = true
      · exact ⟨a, List.mem_cons_self a rest, ha⟩
      · rw [wait_cons_ignored d a rest (by simpa using ha)] at h
        obtain ⟨t, ht, htt⟩ := ih h
        exact ⟨t, List.mem_cons_of_mem a ht, htt⟩

/-- The wait-loop trace never records more than one `Stop` call. -/
lemma wait_stopCount_le_one (d : Dissembler) (sigs : List Sig) :
    stopCount (d.Wait sigs).1 ≤ 1 := by
  induction sigs with
  | nil => simp [wait_nil, stopCount]
  | cons a rest ih =>
      by_cases ha : isTerminating a = true
      · rw [wait_cons_terminating d a rest ha]
        cases a <;> simp [isTerminating] at ha <;> simp [stopCount]
      · rw [wait_cons_ignored d a rest (by simpa using ha)]
        simpa [stopCount] using ih

/-- `insertStart` adds no `Stop` call to a trace. -/
lemma stopCount_insertStart (sched : Option Nat) (evs : List Event) :
    stopCount (insertStart sched evs) = stopCount evs := by
  cases sched with
  | none => rfl
  | some k =>
      have hne : (Event.startCall == Event.stopCall) = false := by decide
      simp [insertStart, stopCount, List.count_append, List.count_cons, hne]
      rw [← List.count_append, List.take_append_drop]

lemma stopCount_map_sigCaught (pre : List Sig) :
    stopCount (pre.map Event.sigCaught) = 0 := by
  induction pre with
  | nil => rfl
  | cons a pre ih => simpa [stopCount, List.count_cons] using ih

/-- The wait loop's behaviour does not depend on the lifecycle at all: the
loop only ever calls `Stop` and discards its result. -/
lemma wait_lifecycle_irrelevant (d₁ d₂ : Dissembler) (sigs : List Sig) :
    d₁.Wait sigs = d₂.Wait sigs := by
  induction sigs with
  | nil => rfl
  | cons a rest ih => cases a <;> simp [Dissembler.Wait, ih]

lemma reload_not_in_wait (d : Dissembler) (sigs : List Sig) :
    Event.reloadCall ∉ (d.Wait sigs).1 := by
  induction sigs with
  | nil => simp [wait_nil]
  | cons a rest ih =>
      by_cases ha : isTerminating a = true
      · rw [wait_cons_terminating d a rest ha]; simp
      · rw [wait_cons_ignored d a rest (by simpa using ha)]
        simpa using ih

lemma mem_insertStart {x : Event} {sched : Option Nat} {evs : List Event}
    (h : x ∈ insertStart sched evs) : x = Event.startCall ∨ x ∈ evs := by
  cases sched with
  | none => exact Or.inr h
  | some k =>
      simp only [insertStart, List.mem_append, List.mem_cons] at h
      rcases h with h | h | h
      · exact Or.inr (List.take_subset _ _ h)
      · exact Or.inl h
      · exact Or.inr (List.drop_subset _ _ h)

/-- Structure of the wait loop's outcome on a first terminating signal. -/
lemma wait_first_terminating (d : Dissembler) (pre rest : List Sig) (s : Sig)
    (hs : isTerminating s = true)
    (hpre : ∀ x ∈ pre, isTerminating x = false) :
    d.Wait (pre ++ s :: rest) =
      (pre.map Event.sigCaught ++ [.sigCaught s, .stopCall], some (s, none)) := by
  rw [wait_append_ignored d pre _ hpre, wait_cons_terminating d s rest hs]

/-! ### Claim theorems -/

/-- C1: for every terminating signal s ∈ {INT, QUIT, TERM} and every
lifecycle, when s is the first terminating signal received by the wait loop,
`Wait` calls `Stop` exactly once and returns the pair (s, no error),
regardless of what `Stop` returns (the lifecycle is universally quantified,
so in particular its `Stop` may fail); and the only way `Wait` exits its
loop is by receiving a terminating signal. -/
theorem C1_wait_first_terminating_stops_once (d : Dissembler) (pre rest : List Sig)
    (s : Sig) (hs : isTerminating s = true)
    (hpre : ∀ x ∈ pre, isTerminating x = false) :
    (d.Wait (pre ++ s :: rest)).2 = some (s, none) ∧
    stopCount (d.Wait (pre ++ s :: rest)).1 = 1 ∧
    (∀ sigs : List Sig, ((d.Wait sigs).2).isSome = true →
      ∃ t ∈ sigs, isTerminating t = true) := by
  have hform := wait_first_terminating d pre rest s hs hpre
  refine ⟨by rw [hform], ?_, fun sigs h => wait_returns_imp_terminating d sigs h⟩
  rw [hform]
  have hz : List.count Event.stopCall (pre.map Event.sigCaught) = 0 :=
    List.count_eq_zero.mpr (by simp)
  simp [stopCount, List.count_append, List.count_cons, hz]

/-- Witness for C1: QUIT after an ignored HUP, with a failing `Stop`. -/
theorem C1_witness :
    (((Dissembler.mk ⟨none, none, some "stop failed", none⟩).Wait
        ([.SIGHUP] ++ .SIGQUIT :: [.SIGTERM])).2 = some (.SIGQUIT, none)) ∧
    stopCount ((Dissembler.mk ⟨none, none, some "stop failed", none⟩).Wait
        ([.SIGHUP] ++ .SIGQUIT :: [.SIGTERM])).1 = 1 := by
  have h := C1_wait_first_terminating_stops_once
    (Dissembler.mk ⟨none, none, some "stop failed", none⟩)
    [.SIGHUP] [.SIGTERM] .SIGQUIT (by decide) (by decide)
  exact ⟨h.1, h.2.1⟩

/-- C2: at most one terminating signal is acted upon per `Serve` call: the
trace of any `Serve` run contains at most one `Stop` call; and whenever the
delivered sequence is a non-terminating prefix followed by a terminating
signal s, the wait loop's whole outcome ignores everything delivered after
s (the suffix is discarded), `Wait` reports s with no error, `Stop` is
called exactly once by the wait loop, and — when `Init` succeeded, so the
loop is reached — exactly once in the whole `Serve` run. -/
theorem C2_first_terminating_only (d : Dissembler) (sigs : List Sig) (sched : Option Nat) :
    stopCount (d.Serve sigs sched).trace ≤ 1 ∧
    (∀ pre s rest, isTerminating s = true → (∀ x ∈ pre, isTerminating x = false) →
      d.Wait (pre ++ s :: rest) = d.Wait (pre ++ [s]) ∧
      (d.Wait (pre ++ s :: rest)).2 = some (s, none) ∧
      stopCount (d.Wait (pre ++ s :: rest)).1 = 1 ∧
      (d.lifecycle.initRes = none →
        stopCount (d.Serve (pre ++ s :: rest) sched).trace = 1)) := by
  have h1 : (Event.initCall == Event.stopCall) = false := by decide
  constructor
  · cases h : d.lifecycle.initRes with
    | some e => simp [Dissembler.Serve, h, stopCount]
    | none =>
        have hbody : stopCount (Event.initCall :: insertStart sched (d.Wait sigs).1) ≤ 1 := by
          simp only [stopCount, List.count_cons, h1, if_false, Nat.add_zero]
          calc List.count Event.stopCall (insertStart sched (d.Wait sigs).1)
              = stopCount (d.Wait sigs).1 := stopCount_insertStart sched _
            _ ≤ 1 := wait_stopCount_le_one d sigs
        simpa [Dissembler.Serve, h] using hbody
  · intro pre s rest hs hpre
    have hform := wait_first_terminating d pre rest s hs hpre
    have hz : List.count Event.stopCall (pre.map Event.sigCaught) = 0 :=
      List.count_eq_zero.mpr (by simp)
    have hone : stopCount (d.Wait (pre ++ s :: rest)).1 = 1 := by
      rw [hform]
      simp [stopCount, List.count_append, List.count_cons, hz]
    refine ⟨?_, by rw [hform], hone, ?_⟩
    · rw [hform, wait_first_terminating d pre [] s hs hpre]
    · intro hinit
      have htr : (d.Serve (pre ++ s :: rest) sched).trace
          = Event.initCall :: insertStart sched (d.Wait (pre ++ s :: rest)).1 := by
        simp [Dissembler.Serve, hinit]
      rw [htr]
      simp only [stopCount, List.count_cons, h1, if_false, Nat.add_zero]
      calc List.count Event.stopCall (insertStart sched (d.Wait (pre ++ s :: rest)).1)
          = stopCount (d.Wait (pre ++ s :: rest)).1 := stopCount_insertStart sched _
        _ = 1 := hone

/-- Witness for C2: INT then TERM in rapid succession yields exactly one
Stop in the whole `Serve` run, and INT is reported. -/
theorem C2_witness :
    stopCount ((Dissembler.mk ⟨none, none, none, none⟩).Serve
      ([] ++ .SIGINT :: [.SIGTERM]) (some 0)).trace = 1 ∧
    stopCount ((Dissembler.mk ⟨none, none, none, none⟩).Wait
      ([] ++ .SIGINT :: [.SIGTERM])).1 = 1 ∧
    ((Dissembler.mk ⟨none, none, none, none⟩).Wait
      ([] ++ .SIGINT :: [.SIGTERM])).2 = some (.SIGINT, none) := by
  have h := (C2_first_terminating_only (Dissembler.mk ⟨none, none, none, none⟩)
    [.SIGINT, .SIGTERM] (some 0)).2 [] .SIGINT [.SIGTERM] (by decide) (by decide)
  exact ⟨h.2.2.2 (by decide), h.2.2.1, h.2.1⟩

/-- C3: if `Init` fails with error e, `Serve` returns exactly e, the trace
is only the `Init` invocation — so `Start` and `Stop` are never invoked —
and the wait loop is not entered. -/
theorem C3_init_failure_aborts (lc : Lifecycle) (e : Err) (sigs : List Sig)
    (sched : Option Nat) (h : lc.initRes = some e) :
    (Serve lc sigs sched).ret = some (some e) ∧
    (Serve lc sigs sched).trace = [.initCall] ∧
    Event.startCall ∉ (Serve lc sigs sched).trace ∧
    Event.stopCall ∉ (Serve lc sigs sched).trace ∧
    (Serve lc sigs sched).waitEntered = false := by
  simp [Serve, Dissembler.Serve, h]

/-- Witness for C3. -/
theorem C3_witness :
    (Serve ⟨some "init failed", none, none, none⟩ [.SIGINT] none).ret
      = some (some "init failed") ∧
    (Serve ⟨some "init failed", none, none, none⟩ [.SIGINT] none).trace
      = [.initCall] := by
  have h := C3_init_failure_aborts ⟨some "init failed", none, none, none⟩
    "init failed" [.SIGINT] none (by decide)
  exact ⟨h.1, h.2.1⟩

/-- C4: once `Init` succeeds and `Wait` returns, `Serve` returns nil
(success) unconditionally — the lifecycle is universally quantified, so in
particular `Stop` may have failed, and the source's `Wait` error is only
logged, never propagated. -/
theorem C4_serve_swallows_late_failures (lc : Lifecycle) (sigs : List Sig)
    (sched : Option Nat) (hinit : lc.initRes = none)
    (hret : ((((Dissembler.mk lc)).Wait sigs).2).isSome = true) :
    (Serve lc sigs sched).ret = some none := by
  simp [Serve, Dissembler.Serve, hinit, hret]

/-- Witness for C4: a failing `Stop` still yields a nil `Serve` result. -/
theorem C4_witness :
    (Serve ⟨none, none, some "stop failed", none⟩ [.SIGTERM] (some 0)).ret
      = some none := by
  exact C4_serve_swallows_late_failures ⟨none, none, some "stop failed", none⟩
    [.SIGTERM] (some 0) (by decide) (by decide)

/-- C5: with no `Reloader` wired, delivering only signals from
{HUP, USR1, USR2} never invokes `Stop` and never makes `Wait` return: each
such signal is merely logged and the loop keeps waiting.  A subsequent
terminating signal still yields exactly one `Stop` call, occurring only
after that terminating signal is caught. -/
theorem C5_ignored_signals_then_single_stop (d : Dissembler) (sigs : List Sig)
    (_hnr : d.lifecycle.reload = none)
    (hsigs : ∀ x ∈ sigs, x = Sig.SIGHUP ∨ x = Sig.SIGUSR1 ∨ x = Sig.SIGUSR2) :
    (d.Wait sigs).2 = none ∧
    (d.Wait sigs).1 = sigs.map Event.sigCaught ∧
    stopCount (d.Wait sigs).1 = 0 ∧
    (∀ t, isTerminating t = true →
      d.Wait (sigs ++ [t]) =
        (sigs.map Event.sigCaught ++ [.sigCaught t, .stopCall], some (t, none)) ∧
      stopCount (d.Wait (sigs ++ [t])).1 = 1) := by
  have hpre : ∀ x ∈ sigs, isTerminating x = false := by
    intro x hx
    rcases hsigs x hx with h | h | h <;> subst h <;> rfl
  have hself : d.Wait sigs = (sigs.map Event.sigCaught, none) := by
    have h := wait_append_ignored d sigs [] hpre
    simpa [wait_nil] using h
  have hz : List.count Event.stopCall (sigs.map Event.sigCaught) = 0 :=
    List.count_eq_zero.mpr (by simp)
  refine ⟨by rw [hself], by rw [hself], by rw [hself]; simpa [stopCount] using hz, ?_⟩
  intro t ht
  have hterm := wait_first_terminating d sigs [] t ht hpre
  refine ⟨hterm, ?_⟩
  rw [hterm]
  simp [stopCount, List.count_append, List.count_cons, hz]

/-- Witness for C5: HUP delivered three times then TERM gives exactly one
Stop, placed after the caught TERM. -/
theorem C5_witness :
    ((Dissembler.mk ⟨none, none, none, none⟩).Wait [.SIGHUP, .SIGHUP, .SIGHUP]).2
      = none ∧
    (Dissembler.mk ⟨none, none, none, none⟩).Wait ([.SIGHUP, .SIGHUP, .SIGHUP] ++ [.SIGTERM])
      = ([Sig.SIGHUP, Sig.SIGHUP, Sig.SIGHUP].map Event.sigCaught
          ++ [.sigCaught .SIGTERM, .stopCall], some (.SIGTERM, none)) := by
  have h := C5_ignored_signals_then_single_stop
    (Dissembler.mk ⟨none, none, none, none⟩) [.SIGHUP, .SIGHUP, .SIGHUP]
    (by decide) (by decide)
  exact ⟨h.1, (h.2.2.2 .SIGTERM (by decide)).1⟩

/-- C6: `Serve`'s outcome is independent of `Start`'s result: two lifecycles
that agree on their `Init` and `Stop` results produce identical `Serve`
outcomes under the same delivered signals and the same goroutine schedule,
whatever their `Start` results are — a `Start` failure is unobservable. -/
theorem C6_start_failure_unobservable (lc₁ lc₂ : Lifecycle) (sigs : List Sig)
    (sched : Option Nat) (hinit : lc₁.initRes = lc₂.initRes)
    (_hstop : lc₁.stopRes = lc₂.stopRes) :
    Serve lc₁ sigs sched = Serve lc₂ sigs sched := by
  have hw := wait_lifecycle_irrelevant (Dissembler.mk lc₁) (Dissembler.mk lc₂) sigs
  cases h : lc₂.initRes with
  | some e => rw [h] at hinit; simp [Serve, Dissembler.Serve, h, hinit]
  | none => rw [h] at hinit; simp [Serve, Dissembler.Serve, h, hinit, hw]

/-- Witness for C6: a failing `Start` versus a succeeding one. -/
theorem C6_witness :
    (Lifecycle.mk none (some "start failed") none none).initRes
      = (Lifecycle.mk none none none none).initRes ∧
    (Lifecycle.mk none (some "start failed") none none).stopRes
      = (Lifecycle.mk none none none none).stopRes ∧
    Serve ⟨none, some "start failed", none, none⟩ [.SIGINT] (some 0)
      = Serve ⟨none, none, none, none⟩ [.SIGINT] (some 0) :=
  ⟨by decide, by decide,
    C6_start_failure_unobservable ⟨none, some "start failed", none, none⟩
      ⟨none, none, none, none⟩ [.SIGINT] (some 0) (by decide) (by decide)⟩

/-- C7: a lifecycle recording its callback invocations, with `Init`
succeeding and the `Start` goroutine scheduled before the signal is handled
(a running Supervisor), sees exactly the order Init, Start, Stop when a
single INT is delivered, and `Wait` reports INT with no error. -/
theorem C7_int_gives_init_start_stop (lc : Lifecycle) (hinit : lc.initRes = none) :
    callEvents (Serve lc [.SIGINT] (some 0)).trace
      = [.initCall, .startCall, .stopCall] ∧
    ((Dissembler.mk lc).Wait [.SIGINT]).2 = some (.SIGINT, none) := by
  constructor
  · simp [Serve, Dissembler.Serve, hinit, Dissembler.Wait, insertStart, callEvents]
  · rfl

/-- Witness for C7. -/
theorem C7_witness :
    callEvents (Serve ⟨none, none, none, none⟩ [.SIGINT] (some 0)).trace
      = [.initCall, .startCall, .stopCall] ∧
    ((Dissembler.mk ⟨none, none, none, none⟩).Wait [.SIGINT]).2
      = some (.SIGINT, none) :=
  C7_int_gives_init_start_stop ⟨none, none, none, none⟩ (by decide)

/-- C8: `Wait` subscribes to exactly the six signal kinds HUP, INT, QUIT,
TERM, USR1, USR2 (every signal kind is in the subscription list, which has
no duplicates and length six) through a channel of capacity at least 2. -/
theorem C8_six_signals_buffered_channel :
    (∀ s : Sig, s ∈ notifiedSignals) ∧
    notifiedSignals.Nodup ∧
    notifiedSignals.length = 6 ∧
    2 ≤ signalChanCapacity := by
  refine ⟨fun s => ?_, by decide, rfl, by decide⟩
  cases s <;> decide

/-- C9: `Reload` is never invoked by `Serve` or its wait loop, for any
lifecycle (including one implementing `Reloader` — the lifecycle, hence its
`reload` field, is universally quantified), any delivered signals and any
goroutine schedule. -/
theorem C9_reload_never_invoked (d : Dissembler) (sigs : List Sig)
    (sched : Option Nat) : Event.reloadCall ∉ (d.Serve sigs sched).trace := by
  cases h : d.lifecycle.initRes with
  | some e => simp [Dissembler.Serve, h]
  | none =>
      simp only [Dissembler.Serve, h]
      intro hmem
      rcases List.mem_cons.mp hmem with h1 | h1
      · exact Event.noConfusion h1
      · rcases mem_insertStart h1 with h2 | h2
        · exact Event.noConfusion h2
        · exact reload_not_in_wait d sigs h2

/-- C10: whenever `Wait` returns, the error component of its result is nil,
and consequently the `Wait`-error logging branch of `Serve` is never taken
in any execution. -/
theorem C10_wait_error_nil_branch_dead (d : Dissembler) (sigs : List Sig)
    (sched : Option Nat) :
    ((d.Wait sigs).2.all fun p => p.2 == none) = true ∧
    (d.Serve sigs sched).waitErrLogged = false := by
  have hall : ∀ l : List Sig, ((d.Wait l).2.all fun p => p.2 == none) = true := by
    intro l
    induction l with
    | nil => rfl
    | cons a rest ih =>
        by_cases ha : isTerminating a = true
        · rw [wait_cons_terminating d a rest ha]; rfl
        · rw [wait_cons_ignored d a rest (by simpa using ha)]; exact ih
  refine ⟨hall sigs, ?_⟩
  cases h : d.lifecycle.initRes with
  | some e => simp [Dissembler.Serve, h]
  | none =>
      have hs := hall sigs
      cases hw : (d.Wait sigs).2 with
      | none => simp [Dissembler.Serve, h, hw]
      | some p =>
          rw [hw] at hs
          obtain ⟨s, e2⟩ := p
          cases e2 with
          | none => simp [Dissembler.Serve, h, hw]
          | some err => simp [Option.all] at hs
